import Mathlib

/-!
# CodeCity — verification of the serializer, scope chain, hoisting pass and
  step engine

This development shallowly embeds the parts of the CodeCity repository that
the specification's checkable sentences talk about:

* `src/unnamed/part_001` — the Go prototype of the interpreter: the `scope`
  type with `getVar` / `setVar` / `populate`, and the step-state machine
  (`newState`, the `state<NodeType>` types with `step` and `acceptValue`).
  The `object` package (package `object`, values `Undefined`, `Number`,
  `IsTruthy`, …) is not under `src/`; only its test file is.  Its value
  universe and truthiness predicate are modelled from those tests.
* `src/server/serialize.js` — `Serializer.serialize` / `Serializer.deserialize`
  with their helpers `encodeValue`, `decodeValue`, `objectHunt_`,
  `getTypesDeserialize_`, the prune lists and the exclude set.
* `src/demo/core_13_$.utils.code.js` — `$.utils.code.toSource` and
  `$.utils.code.toSourceSafe`.

Machine doubles are modelled as exact rationals plus the special IEEE values
that the serializer treats specially (`-0`, `±Infinity`, `NaN`); all
arithmetic appearing in the claims is small-integer arithmetic, where the
rationals agree with IEEE doubles.
-/

namespace CodeCity

/-- A JavaScript (or Go `float64`) number as the serializer observes it:
either an ordinary finite value -- modelled as an exact rational, with the
single zero `0` -- or one of the four special values that
`serialize.js` encodes with a tagged `Number` record.  Equality of `JSNum`
is `Object.is`-equality: `-0` and `NaN` are distinguished. -/
inductive JSNum where
  | finite (q : ℚ)
  | negZero
  | posInf
  | negInf
  | nan
deriving DecidableEq, Repr

/-! ## The Go interpreter prototype (`src/unnamed/part_001`)

### Values (package `object`, modelled from its tests in `src/unnamed/part_000`)
-/

/-- Modelled from the spec: the `object` package's `Value` universe is not
under `src/` (only its tests are).  From the spec's value model ("a value is
exactly one of `undefined`, `null`, boolean, number, string, or a
pseudo-object reference") and the test file `src/unnamed/part_000`
(`Boolean`, `Number`, `String`, `Null{}`, `Undefined{}`), a primitive Go
interpreter value is one of the following.  Pseudo-object references are not
needed by any claim about this interpreter and are omitted. -/
inductive GoValue where
  | undefinedV
  | nullV
  | booleanV (b : Bool)
  | numberV (q : ℚ)
  | stringV (s : String)
deriving DecidableEq, Repr

/-- Modelled from the spec: `object.IsTruthy` is not under `src/`; the table
in `TestIsTruthy` (`src/unnamed/part_000`) determines it on every class of
value used here: `false`, `null`, `undefined`, `""`, `0` are falsy;
non-empty strings and non-zero numbers are truthy. -/
def isTruthy : GoValue → Bool
  | .undefinedV => false
  | .nullV => false
  | .booleanV b => b
  | .numberV q => q ≠ 0
  | .stringV s => s ≠ ""

/-! ### The AST (`CodeCity/server/interpreter/ast`, as consumed by `part_001`)

The `ast` package itself is not under `src/`; the node shapes below are the
ESTree shapes that `scope.populate` and `newState` in `src/unnamed/part_001`
destructure (field names follow the Go code).  `Literal` nodes carry the
`object.PrimitiveFromRaw` image of their raw text (that function is in the
absent `object` package; its behaviour on the raw forms used here is fixed
by `TestPrimitiveFromRaw`).  `WithStatement` makes `populate` panic
("not implemented") and is outside the modelled fragment. -/
inductive Node where
  | program (body : List Node)
  | blockStatement (body : List Node)
  | emptyStatement
  | expressionStatement (expression : Node)
  | variableDeclaration (declarations : List Node)
  | variableDeclarator (id : String) (ini : Option Node)
  | functionDeclaration (id : String) (body : Node)
  | functionExpression (body : Node)
  | ifStatement (test consequent alternate : Node)
  | conditionalExpression (test consequent alternate : Node)
  | whileStatement (test body : Node)
  | doWhileStatement (body test : Node)
  | forStatement (ini test update body : Node)
  | forInStatement (left right body : Node)
  | labeledStatement (body : Node)
  | breakStatement
  | continueStatement
  | returnStatement (argument : Option Node)
  | throwStatement (argument : Node)
  | tryStatement (block handler finalizer : Node)
  | catchClause (param : String) (body : Node)
  | switchStatement (discriminant : Node) (cases : List Node)
  | switchCase (test : Option Node) (consequent : List Node)
  | debuggerStatement
  | identifier (name : String)
  | literal (value : GoValue)
  | assignmentExpression (operator : String) (left right : Node)
  | binaryExpression (operator : String) (left right : Node)
  | logicalExpression (operator : String) (left right : Node)
  | unaryExpression (operator : String) (argument : Node)
  | updateExpression (operator : String) (isPre : Bool) (argument : Node)
  | memberExpression (objectE property : Node) (computed : Bool)
  | callExpression (callee : Node) (arguments : List Node)
  | newExpression (callee : Node) (arguments : List Node)
  | objectExpression (properties : List Node)
  | property (key value : Node)
  | arrayExpression (elements : List Node)
  | sequenceExpression (expressions : List Node)
  | thisExpression
deriving Repr

/-! ### Scopes (`scope` in `src/unnamed/part_001`) -/

/-- The variable map of one Go `scope` (`vars map[string]object.Value`).
Represented as an association list; `varSet` has Go-map assignment
semantics (overwrite in place, else append), `varGet` is map lookup. -/
abbrev Vars := List (String × GoValue)

/-- Go map lookup `this.vars[name]` (`nil, false` when absent). -/
def varGet (vs : Vars) (name : String) : Option GoValue :=
  match vs with
  | [] => none
  | (k, v) :: rest => if k = name then some v else varGet rest name

/-- Go map assignment `this.vars[name] = value`. -/
def varSet (vs : Vars) (name : String) (v : GoValue) : Vars :=
  match vs with
  | [] => [(name, v)]
  | (k, w) :: rest => if k = name then (k, v) :: rest else (k, w) :: varSet rest name v

/-- The Go `scope` struct: a variable map and a pointer to the parent
(enclosing) scope, `nil` for the global scope.  (The `interpreter`
back-pointer carries no variable-lookup information and is dropped.) -/
inductive GoScope where
  | mk (vars : Vars) (parent : Option GoScope)

/-- `vars` field of a `GoScope`. -/
def GoScope.scopeVars : GoScope → Vars
  | .mk vs _ => vs

/-- `parent` field of a `GoScope`. -/
def GoScope.scopeParent : GoScope → Option GoScope
  | .mk _ p => p

/-- The Go panics the embedded fragment can raise (`panic(fmt.Errorf(...))`
in `src/unnamed/part_001`).  These are host errors, not user-level
exceptions: the Go code has no user-level exception mechanism at all. -/
inductive GoPanic where
  /-- `can't get undeclared variable <name>` in `scope.getVar`. -/
  | undeclaredGet
  /-- `can't set undeclared variable <name>` in `scope.setVar`. -/
  | undeclaredSet
  /-- `not implemented` (member-expression lvalues, `lvalue.next`, …). -/
  | notImplemented
  /-- `%T is not an lvalue` in `lvalue.init`. -/
  | notAnLvalue
  /-- `State for AST node type %T not implemented` in `newState`. -/
  | stateNotImplemented
  /-- dynamic type assertion `this.parent.(valueAcceptor)` failed. -/
  | notValueAcceptor
  /-- `too may values` in `stateBinaryExpression.acceptValue`. -/
  | tooManyValues
  /-- type assertion `.(object.Number)` failed in `stateBinaryExpression`. -/
  | notANumber
  /-- `not implemented` for a binary operator outside `+ - * /`. -/
  | opNotImplemented
  /-- `Why are we bothering to execute an variable declaration …` panic. -/
  | noInitDeclarator
  /-- nil-pointer dereference (stepping a state whose parent is nil where a
  parent is required). -/
  | nilParent
  /-- the `decls` list of a `VariableDeclaration` held a non-declarator
  (unrepresentable in the Go types; defensive case). -/
  | badAst
  /-- node kind outside the fragment embedded here (`ObjectExpression`
  needs the absent `object` package's pseudo-objects). -/
  | outsideModel
deriving DecidableEq, Repr

/-- `scope.getVar` (`src/unnamed/part_001` lines 136–143): looks `name` up
in **this scope's own map only** — the `parent` pointer is not consulted
(the code's own FIXME: "this should probably recurse") — and panics when
the name is not there. -/
def scopeGetVar (s : GoScope) (name : String) : Except GoPanic GoValue :=
  match varGet s.scopeVars name with
  | some v => .ok v
  | none => .error .undeclaredGet

/-- `scope.setVar` (`src/unnamed/part_001` lines 123–129): checks that
`name` is in **this scope's own map only** and overwrites it; panics when
absent (the parent chain is never consulted). -/
def scopeSetVar (s : GoScope) (name : String) (v : GoValue) : Except GoPanic GoScope :=
  match s with
  | .mk vs p =>
    match varGet vs name with
    | some _ => .ok (.mk (varSet vs name v) p)
    | none => .error .undeclaredSet

/-- The scope-chain lookup the specification describes ("`get(name)` walks
outward"): the value of the binding in the nearest enclosing scope that
declares `name`, `none` when no scope in the chain declares it.  This is a
spec-side definition, written for comparison with `scopeGetVar`. -/
def chainLookup (s : GoScope) (name : String) : Option GoValue :=
  match s with
  | .mk vs p =>
    match varGet vs name with
    | some v => some v
    | none =>
      match p with
      | some parentScope => chainLookup parentScope name
      | none => none

/-! ### The hoisting pre-pass (`scope.populate`, `src/unnamed/part_001`
lines 145–231)

`populate` is a method on `scope` mutating `this.vars`; the embedding
transforms the `Vars` map (the `parent` pointer is never touched). -/

mutual

/-- `scope.populate`: declares (in this scope, with value `Undefined{}`)
the name of every `VariableDeclarator` and `FunctionDeclaration` in the
statement tree, descending exactly through the statement shapes the Go
`switch` recurses into and ignoring (returning the scope unchanged on) the
expression shapes it lists as unable to contain declarations. -/
def populate (vs : Vars) : Node → Vars
  | .variableDeclarator id _ => varSet vs id .undefinedV
  | .functionDeclaration id _ => varSet vs id .undefinedV
  | .blockStatement body => populateList vs body
  | .catchClause _ body => populate vs body
  | .doWhileStatement body _ => populate vs body
  | .forInStatement left _ body => populate (populate vs left) body
  | .forStatement ini _ _ body => populate (populate vs ini) body
  | .ifStatement _ consequent alternate => populate (populate vs consequent) alternate
  | .labeledStatement body => populate vs body
  | .program body => populateList vs body
  | .switchCase _ consequent => populateList vs consequent
  | .switchStatement _ cases => populateList vs cases
  | .tryStatement block handler finalizer =>
      populate (populate (populate vs block) handler) finalizer
  | .variableDeclaration declarations => populateList vs declarations
  | .whileStatement _ body => populate vs body
  | .arrayExpression _ => vs
  | .assignmentExpression _ _ _ => vs
  | .binaryExpression _ _ _ => vs
  | .breakStatement => vs
  | .callExpression _ _ => vs
  | .conditionalExpression _ _ _ => vs
  | .continueStatement => vs
  | .debuggerStatement => vs
  | .emptyStatement => vs
  | .expressionStatement _ => vs
  | .functionExpression _ => vs
  | .identifier _ => vs
  | .literal _ => vs
  | .logicalExpression _ _ _ => vs
  | .memberExpression _ _ _ => vs
  | .newExpression _ _ => vs
  | .objectExpression _ => vs
  | .property _ _ => vs
  | .returnStatement _ => vs
  | .sequenceExpression _ => vs
  | .thisExpression => vs
  | .throwStatement _ => vs
  | .unaryExpression _ _ => vs
  | .updateExpression _ _ _ => vs

/-- The `for _, s := range …` loops of `populate` over statement lists. -/
def populateList (vs : Vars) : List Node → Vars
  | [] => vs
  | s :: rest => populateList (populate vs s) rest

end

mutual

/-- The set of names the hoisting pre-pass is specified to declare: the
name of every `VariableDeclarator` and `FunctionDeclaration` found anywhere
in the statement tree, descending through blocks, ifs, loops,
try/catch/finally, switch and labeled statements but not into nested
function bodies.  This is a spec-side definition, written for comparison
with `populate`. -/
def hoistNames : Node → List String
  | .variableDeclarator id _ => [id]
  | .functionDeclaration id _ => [id]
  | .blockStatement body => hoistNamesList body
  | .catchClause _ body => hoistNames body
  | .doWhileStatement body _ => hoistNames body
  | .forInStatement left _ body => hoistNames left ++ hoistNames body
  | .forStatement ini _ _ body => hoistNames ini ++ hoistNames body
  | .ifStatement _ consequent alternate => hoistNames consequent ++ hoistNames alternate
  | .labeledStatement body => hoistNames body
  | .program body => hoistNamesList body
  | .switchCase _ consequent => hoistNamesList consequent
  | .switchStatement _ cases => hoistNamesList cases
  | .tryStatement block handler finalizer =>
      hoistNames block ++ hoistNames handler ++ hoistNames finalizer
  | .variableDeclaration declarations => hoistNamesList declarations
  | .whileStatement _ body => hoistNames body
  | _ => []

/-- `hoistNames` over a statement list. -/
def hoistNamesList : List Node → List String
  | [] => []
  | s :: rest => hoistNames s ++ hoistNamesList rest

end

/-! ### The step engine (`newState`, `state<NodeType>`, `src/unnamed/part_001`)

Each Go `state<NodeType>` struct is a constructor below; the `parent state`
field of `stateCommon` (an interface value, `nil` for the root state) is an
embedded `Option St`.  Go mutates states through the parent pointer
(`this.parent.(valueAcceptor).acceptValue(v)`); the embedding returns the
updated parent instead.  The `scope` field of `stateCommon` is not embedded
per-state: the Go code creates exactly one scope (`newScope` is called only
from `Interpreter.New`), so every state's `scope` pointer denotes the single
global scope, carried once in `Mach`. -/

inductive St where
  /-- `stateBlockStatement` (also used for `Program` via `initFromProgram`). -/
  | blockSt (parent : Option St) (body : List Node) (n : Nat)
  /-- `stateExpressionStatement`. -/
  | exprStmtSt (parent : Option St) (expr : Node) (dne : Bool)
  /-- `stateFunctionDeclaration` (no-op at evaluation time). -/
  | funcDeclSt (parent : Option St)
  /-- `stateEmptyStatement`. -/
  | emptySt (parent : Option St)
  /-- `stateVariableDeclaration`. -/
  | varDeclSt (parent : Option St) (decls : List Node)
  /-- `stateVariableDeclarator`. -/
  | varDeclaratorSt (parent : Option St) (name : String) (ini : Option Node)
      (value : Option GoValue)
  /-- `stateAssignmentExpression`; its `lvalue` is embedded as the resolved
  identifier name (`lvalue.init` panics on every non-identifier target, so a
  constructed assignment state always has a ready identifier lvalue). -/
  | assignSt (parent : Option St) (op : String) (lvName : String) (rNode : Node)
      (rightv : Option GoValue)
  /-- `stateIdentifier`. -/
  | identSt (parent : Option St) (name : String)
  /-- `stateLiteral`. -/
  | literalSt (parent : Option St) (value : GoValue)
  /-- `stateBinaryExpression`. -/
  | binSt (parent : Option St) (op : String) (lNode rNode : Node)
      (haveLeft haveRight : Bool) (leftv rightv : GoValue)
  /-- `stateConditionalExpression`. -/
  | condSt (parent : Option St) (test consequent alternate : Node)
      (result haveResult : Bool)
  /-- `stateIfStatement`. -/
  | ifSt (parent : Option St) (test consequent alternate : Node)
      (result haveResult : Bool)

/-- `newState(parent, scope, node)` (`src/unnamed/part_001` lines 263–325):
builds the state kind for the AST node, panicking (`State for AST node type
%T not implemented`) outside the implemented list.  `ObjectExpression` is
implemented in the source but needs the absent `object` package's
pseudo-objects, so it is outside this embedding (`outsideModel`); no claim
evaluates an object expression. -/
def newState (parent : Option St) (node : Node) : Except GoPanic St :=
  match node with
  | .assignmentExpression op left right =>
    match left with
    | .identifier nm => .ok (.assignSt parent op nm right none)
    | .memberExpression _ _ _ => .error .notImplemented
    | _ => .error .notAnLvalue
  | .binaryExpression op l r =>
    .ok (.binSt parent op l r false false .undefinedV .undefinedV)
  | .blockStatement body => .ok (.blockSt parent body 0)
  | .conditionalExpression t c a => .ok (.condSt parent t c a false false)
  | .emptyStatement => .ok (.emptySt parent)
  | .expressionStatement e => .ok (.exprStmtSt parent e false)
  | .functionDeclaration _ _ => .ok (.funcDeclSt parent)
  | .identifier nm => .ok (.identSt parent nm)
  | .ifStatement t c a => .ok (.ifSt parent t c a false false)
  | .literal v => .ok (.literalSt parent v)
  | .objectExpression _ => .error .outsideModel
  | .program body => .ok (.blockSt parent body 0)
  | .variableDeclaration decls => .ok (.varDeclSt parent decls)
  | .variableDeclarator nm ini => .ok (.varDeclaratorSt parent nm ini none)
  | _ => .error .stateNotImplemented

/-- `acceptValue` dispatch: what `this.parent.(valueAcceptor).acceptValue(v)`
does to the parent state.  Returns the updated parent and, when the parent
is a `stateExpressionStatement` (which forwards to
`scope.interpreter.acceptValue`), the new interpreter completion value.
States with no `acceptValue` method make the dynamic type assertion
panic. -/
def acceptVal (s : St) (v : GoValue) : Except GoPanic (St × Option GoValue) :=
  match s with
  | .exprStmtSt p e d => .ok (.exprStmtSt p e d, some v)
  | .varDeclaratorSt p nm ini _ => .ok (.varDeclaratorSt p nm ini (some v), none)
  | .assignSt p op lv rN _ => .ok (.assignSt p op lv rN (some v), none)
  | .binSt p op l r haveL haveR lv rv =>
    if !haveL then .ok (.binSt p op l r true haveR v rv, none)
    else if !haveR then .ok (.binSt p op l r haveL true lv v, none)
    else .error .tooManyValues
  | .condSt p t c a _ _ => .ok (.condSt p t c a (isTruthy v) true, none)
  | .ifSt p t c a _ _ => .ok (.ifSt p t c a (isTruthy v) true, none)
  | _ => .error .notValueAcceptor

/-- `acceptVal` through the (possibly nil) parent pointer; Go dereferences
`this.parent` unconditionally at these call sites. -/
def acceptValOpt (p : Option St) (v : GoValue) : Except GoPanic (St × Option GoValue) :=
  match p with
  | none => .error .nilParent
  | some s => acceptVal s v

/-- `stateBinaryExpression.step`'s operator table: `+ - * /` on
`object.Number` (type-asserting both operands), anything else panics
`not implemented`. -/
def binApply (op : String) (l r : GoValue) : Except GoPanic GoValue :=
  match l, r with
  | .numberV a, .numberV b =>
    if op = "+" then .ok (.numberV (a + b))
    else if op = "-" then .ok (.numberV (a - b))
    else if op = "*" then .ok (.numberV (a * b))
    else if op = "/" then .ok (.numberV (a / b))
    else .error .opNotImplemented
  | _, _ => .error .notANumber

/-- The chain-building loop of `stateVariableDeclaration.step`: walking the
declarator list right to left, stack a `stateVariableDeclarator` (built via
`newState`) for every declarator that has an `Init`, each one's parent being
the previously built state. -/
def chainDecls (p : Option St) : List Node → Except GoPanic (Option St)
  | [] => .ok p
  | d :: rest => do
    let tailSt ← chainDecls p rest
    match d with
    | .variableDeclarator nm ini =>
      match ini with
      | some _ => do
        let st ← newState tailSt (.variableDeclarator nm ini)
        .ok (some st)
      | none => .ok tailSt
    | _ => .error .badAst

/-- One `step()` of the current state, against the global variable map.
Returns the next state (the Go return value, `nil` meaning program
termination), the updated variable map, and an interpreter completion-value
update when one was delivered.  `getVar`/`setVar` are the non-recursive
single-scope operations of the source. -/
def stepSt (s : St) (vars : Vars) : Except GoPanic (Option St × Vars × Option GoValue) :=
  match s with
  | .blockSt p body n =>
    if h : n < body.length then do
      let st ← newState (some (.blockSt p body (n + 1))) (body.get ⟨n, h⟩)
      .ok (some st, vars, none)
    else .ok (p, vars, none)
  | .exprStmtSt p e dne =>
    if dne then .ok (p, vars, none)
    else do
      let st ← newState (some (.exprStmtSt p e true)) e
      .ok (some st, vars, none)
  | .funcDeclSt p => .ok (p, vars, none)
  | .emptySt p => .ok (p, vars, none)
  | .varDeclSt p decls => do
    let chained ← chainDecls p decls
    .ok (chained, vars, none)
  | .varDeclaratorSt p nm ini value =>
    match ini with
    | none => .error .noInitDeclarator
    | some e =>
      match value with
      | none => do
        let st ← newState (some (.varDeclaratorSt p nm ini none)) e
        .ok (some st, vars, none)
      | some v =>
        match varGet vars nm with
        | some _ => .ok (p, varSet vars nm v, none)
        | none => .error .undeclaredSet
  | .assignSt p op lvName rN rightv =>
    match rightv with
    | none => do
      let st ← newState (some (.assignSt p op lvName rN none)) rN
      .ok (some st, vars, none)
    | some v =>
      match varGet vars lvName with
      | some _ => .ok (p, varSet vars lvName v, none)
      | none => .error .undeclaredSet
  | .identSt p nm =>
    match varGet vars nm with
    | none => .error .undeclaredGet
    | some v => do
      let (p2, upd) ← acceptValOpt p v
      .ok (some p2, vars, upd)
  | .literalSt p v => do
    let (p2, upd) ← acceptValOpt p v
    .ok (some p2, vars, upd)
  | .binSt p op lN rN haveL haveR lv rv =>
    if !haveL then do
      let st ← newState (some (.binSt p op lN rN haveL haveR lv rv)) lN
      .ok (some st, vars, none)
    else if !haveR then do
      let st ← newState (some (.binSt p op lN rN haveL haveR lv rv)) rN
      .ok (some st, vars, none)
    else do
      let v ← binApply op lv rv
      let (p2, upd) ← acceptValOpt p v
      .ok (some p2, vars, upd)
  | .condSt p t c a result haveResult =>
    if !haveResult then do
      let st ← newState (some (.condSt p t c a result haveResult)) t
      .ok (some st, vars, none)
    else do
      let st ← newState p (if result then c else a)
      .ok (some st, vars, none)
  | .ifSt p t c a result haveResult =>
    if !haveResult then do
      let st ← newState (some (.ifSt p t c a result haveResult)) t
      .ok (some st, vars, none)
    else do
      let st ← newState p (if result then c else a)
      .ok (some st, vars, none)

/-- Interpreter state: the current execution state (`nil` = terminated), the
single global scope's variable map, and the completion value the interpreter
last accepted (`Interpreter.value`). -/
structure Mach where
  cur : Option St
  vars : Vars
  value : Option GoValue

/-- `Interpreter.Run` (a loop of `Interpreter.Step`), with fuel: step until
the state is `nil` (or fuel runs out, which never happens on the concrete
programs evaluated here). -/
def runM : Nat → Mach → Except GoPanic Mach
  | 0, m => .ok m
  | fuel + 1, m =>
    match m.cur with
    | none => .ok m
    | some s => do
      let (next, vars2, upd) ← stepSt s m.vars
      runM fuel ⟨next, vars2, match upd with | some v => some v | none => m.value⟩

/-- `interpreter.New`: create the global scope, hoist into it with
`populate`, and build the root state for the program tree. -/
def mkInterp (tree : Node) : Except GoPanic Mach := do
  let vars := populate [] tree
  let st ← newState none tree
  .ok ⟨some st, vars, none⟩

/-! ## The snapshot decoder (`Serializer.deserialize`, `src/server/serialize.js`)

### The transport format

A snapshot is a JSON-compatible host value.  JSON numerals are exact
rationals. -/

/-- A JSON-compatible value as `Serializer.deserialize` receives it. -/
inductive JVal where
  | jNull
  | jBool (b : Bool)
  | jNum (q : ℚ)
  | jStr (s : String)
  | jArr (elems : List JVal)
  | jObj (fields : List (String × JVal))
deriving Repr

/-- The JavaScript error classes `Serializer.deserialize` and
`Serializer.serialize` can throw, by kind.  `shapeError` is the kind the
specification's boundary taxonomy names for a non-array top level; no code
path produces it — it is present so that the spec's sentence about it can be
stated. -/
inductive DecErr where
  /-- `ReferenceError` — `Object reference not found`. -/
  | refError
  /-- `TypeError` — `Top-level JSON is not a list.`, `Unknown type:`,
  `Invalid date:`, and host `TypeError`s from reading a property of
  `null`. -/
  | typeError
  /-- `RangeError` — `Function ID not found:`. -/
  | rangeError
  /-- plain `Error` — `Interpreter must be initialized prior to
  deserialization.`. -/
  | plainError
  /-- the spec taxonomy's `ShapeError`; not thrown anywhere in the code. -/
  | shapeError
deriving DecidableEq, Repr

/-- Property lookup `x[k]` on a non-`null` JSON value: fields of an object;
`undefined` (here `none`) on arrays, numbers, booleans and strings for every
key used by the decoder. -/
def jfield (v : JVal) (k : String) : Option JVal :=
  match v with
  | .jObj fields => lookupField fields k
  | _ => none
where
  /-- association lookup on object fields. -/
  lookupField : List (String × JVal) → String → Option JVal
    | [], _ => none
    | (k2, x) :: rest, k => if k2 = k then some x else lookupField rest k

/-- Property lookup that models the host `TypeError` thrown by reading a
property of `null` (`null['type']`, `null['proto']`, …). -/
def jmember (v : JVal) (k : String) : Except DecErr (Option JVal) :=
  match v with
  | .jNull => .error .typeError
  | _ => .ok (jfield v k)

/-- JavaScript truthiness of a possibly-absent JSON field (`undefined`,
`null`, `false`, `0` and `""` are falsy; JSON has no `NaN`). -/
def jTruthy (v : Option JVal) : Bool :=
  match v with
  | none => false
  | some .jNull => false
  | some (.jBool b) => b
  | some (.jNum q) => q ≠ 0
  | some (.jStr s) => s ≠ ""
  | some (.jArr _) => true
  | some (.jObj _) => true

/-- Which JSON values succeed as an array index in `objectList[data]`:
non-negative integral numbers, and strings in canonical decimal form
(JavaScript array access coerces the key to a string; `objectList['2']`
hits element 2, `objectList['02']` does not). -/
def toIndex (v : JVal) : Option Nat :=
  match v with
  | .jNum q => if q.den = 1 ∧ 0 ≤ q.num then some q.num.toNat else none
  | .jStr s =>
    match s.toNat? with
    | some n => if toString n = s then some n else none
    | none => none
  | _ => none

/-- `Number(data)` on the payload of a `{"Number": …}` record: the four
special spellings the encoder emits, decimal integer strings, numbers,
booleans and `null`; everything else in this fragment is `NaN`.  (Host
`Number()` also parses fractional and exponent forms, which the encoder
never emits as `Number` payloads.) -/
def jsToNumber (v : JVal) : JSNum :=
  match v with
  | .jNum q => .finite q
  | .jBool b => .finite (if b then 1 else 0)
  | .jNull => .finite 0
  | .jStr s =>
    if s = "Infinity" then .posInf
    else if s = "-Infinity" then .negInf
    else if s = "NaN" then .nan
    else if s = "-0" then .negZero
    else
      match s.toInt? with
      | some i => .finite i
      | none => .nan
  | .jArr _ => .nan
  | .jObj _ => .nan

/-- A decoded (host) value as it ends up in a property slot, Set, or Map of
the rebuilt object graph. -/
inductive DVal where
  | undef
  | null
  | bool (b : Bool)
  | num (n : JSNum)
  | str (s : String)
  /-- the object allocated for record `idx` (`objectList[idx]`; index `0`
  is the target interpreter itself). -/
  | obj (idx : Nat)
  /-- a raw fragment of the input JSON that `decodeValue` returned
  unchanged (its fall-through `return value`). -/
  | raw (j : JVal)
deriving Repr

/-- `decodeValue` (`src/server/serialize.js` lines 78–101), for an
`objectList` of length `objLen` whose entries are all truthy.  Note the
truthiness tests: `if ((data = value['#']))` does **not** take the
reference branch when the index is `0`, and an object carrying none of the
recognized tags falls through and is returned raw. -/
def decodeValue (objLen : Nat) (v : JVal) : Except DecErr DVal :=
  match v with
  | .jNull => .ok .null
  | .jBool b => .ok (.bool b)
  | .jNum q => .ok (.num (.finite q))
  | .jStr s => .ok (.str s)
  | .jArr _ => decodeTagged objLen v
  | .jObj _ => decodeTagged objLen v
where
  /-- the `typeof value === 'object'` branch. -/
  decodeTagged (objLen : Nat) (v : JVal) : Except DecErr DVal :=
    let d := jfield v "#"
    if jTruthy d then
      match d.bind toIndex with
      | some n => if n < objLen then .ok (.obj n) else .error .refError
      | none => .error .refError
    else
      let dn := jfield v "Number"
      if jTruthy dn then .ok (.num (jsToNumber (dn.getD .jNull)))
      else
        let dv := jfield v "Value"
        if jTruthy dv then
          match dv with
          | some (.jStr s) => if s = "undefined" then .ok .undef else .ok (.raw v)
          | _ => .ok (.raw v)
        else .ok (.raw v)

/-! ### The decoder's object model

Only the state the claims observe is carried: the target interpreter's own
mutable surface, and the per-record objects with their decoded prototypes,
properties, Set members and Map entries. -/

/-- One rebuilt property slot (`Object.defineProperty` descriptor). -/
structure DProp where
  value : DVal
  configurable : Bool
  enumerable : Bool
  writable : Bool
deriving Repr

/-- The constructor selected for a record by the first (stub) pass. -/
inductive StubKind where
  | plainStub
  | funcStub (id : String)
  | arrStub
  | dateStub
  | regexpStub
  | mapStub
  | setStub
  | iwmStub
  | iwsStub
  | registryStub
  | stateStub
  /-- `new constructors[type]` for a name in `getTypesDeserialize_`. -/
  | typedStub (t : String)
deriving DecidableEq, Repr

/-- The key set of `getTypesDeserialize_` (`src/server/serialize.js`
lines 488–513). -/
def knownTypeNames : List String :=
  ["Interpreter", "Scope", "State", "Thread", "PropertyIterator", "Source",
   "PseudoObject", "PseudoFunction", "PseudoUserFunction", "PseudoBoundFunction",
   "PseudoNativeFunction", "PseudoOldNativeFunction", "PseudoArray", "PseudoDate",
   "PseudoRegExp", "PseudoError", "PseudoArguments", "PseudoWeakMap",
   "PseudoThread", "Box", "Server", "Node"]

/-- The target interpreter as the decoder can observe and mutate it: its
initialized flag (`intrp.global`), the id set of its native-function table
(`functionHash`, built from `intrp.builtins` and `intrp.stepFuncs`), and its
own mutable object surface (prototype override, own properties,
extensibility, and whether `postDeserialize` has run). -/
structure Interp where
  global : Bool
  funcIds : List String
  protoSet : Option DVal
  props : List (String × DProp)
  extensible : Bool
  postDeserialized : Bool
deriving Repr

/-- One object rebuilt for a record (a first-pass stub after second-pass
population). -/
structure DObj where
  kind : StubKind
  protoSet : Option DVal
  props : List (String × DProp)
  setData : List DVal
  mapData : List (DVal × DVal)
  extensible : Bool
deriving Repr

/-- The decoder's whole mutable state: the target interpreter (record 0)
and the objects for records `1 …`. -/
structure DecState where
  intrp : Interp
  objs : List DObj
deriving Repr

/-- `Object.defineProperty`: overwrite the slot in place when the key
exists, else append. -/
def defineProp (ps : List (String × DProp)) (k : String) (p : DProp) :
    List (String × DProp) :=
  match ps with
  | [] => [(k, p)]
  | (k2, q) :: rest =>
    if k2 = k then (k2, p) :: rest else (k2, q) :: defineProp rest k p

/-- `new Date(jsonObj['data'])` validity (`isNaN(obj)` check): numbers,
booleans and `null` give valid dates; strings are valid when they are in
the `Date.prototype.toJSON` shape the encoder emits
(`YYYY-MM-DDTHH:MM:SS.mmmZ` with in-range fields — an approximation of host
`Date` parsing, exact on encoder output); objects, arrays and a missing
payload give `Invalid Date`. -/
def dateOk (d : Option JVal) : Bool :=
  match d with
  | some (.jStr s) => isoShape s
  | some (.jNum _) => true
  | some (.jBool _) => true
  | some .jNull => true
  | some (.jArr _) => false
  | some (.jObj _) => false
  | none => false
where
  /-- two decimal digits as a number. -/
  two (a b : Char) : Nat := (a.toNat - 48) * 10 + (b.toNat - 48)
  /-- recognizer for the 24-character `toJSON` shape. -/
  isoShape (s : String) : Bool :=
    match s.toList with
    | [y1, y2, y3, y4, '-', m1, m2, '-', d1, d2, 'T',
       h1, h2, ':', i1, i2, ':', s1, s2, '.', f1, f2, f3, 'Z'] =>
      [y1, y2, y3, y4, m1, m2, d1, d2, h1, h2, i1, i2, s1, s2, f1, f2, f3].all
          (fun c => c.isDigit) &&
        1 ≤ two m1 m2 && two m1 m2 ≤ 12 && 1 ≤ two d1 d2 && two d1 d2 ≤ 31 &&
        two h1 h2 ≤ 23 && two i1 i2 ≤ 59 && two s1 s2 ≤ 59
    | _ => false

/-- First pass, one record (`src/server/serialize.js` lines 139–195): select
a constructor by the `type` tag; resolve `Function` ids against the
interpreter's native-function table (`RangeError` when missing); validate
`Date` payloads (`TypeError` when invalid); reject unknown tags
(`TypeError`). -/
def stubOf (funcIds : List String) (r : JVal) : Except DecErr StubKind := do
  let t ← jmember r "type"
  match t with
  | some (.jStr s) =>
    if s = "Object" then .ok .plainStub
    else if s = "Function" then do
      let idv ← jmember r "id"
      match idv with
      | some (.jStr idStr) =>
        if funcIds.contains idStr then .ok (.funcStub idStr) else .error .rangeError
      | _ => .error .rangeError
    else if s = "Array" then .ok .arrStub
    else if s = "Date" then do
      let d ← jmember r "data"
      if dateOk d then .ok .dateStub else .error .typeError
    else if s = "RegExp" then .ok .regexpStub
    else if s = "Map" then .ok .mapStub
    else if s = "Set" then .ok .setStub
    else if s = "IterableWeakMap" then .ok .iwmStub
    else if s = "IterableWeakSet" then .ok .iwsStub
    else if s = "Registry" then .ok .registryStub
    else if s = "State" then .ok .stateStub
    else if knownTypeNames.contains s then .ok (.typedStub s)
    else .error .typeError
  | _ => .error .typeError

/-- Everything `Serializer.deserialize` does before any mutation of the
target: the top-level `Array.isArray` check (`TypeError`), the
`intrp.global` initialization check (plain `Error`), and the whole first
(stub-creation) pass over records `1 …`.  The second (populate) pass starts
only after this succeeds. -/
def preDecodeCheck (json : JVal) (intrp : Interp) : Except DecErr (List StubKind) :=
  match json with
  | .jArr records =>
    if !intrp.global then .error .plainError
    else (records.drop 1).mapM (stubOf intrp.funcIds)
  | _ => .error .typeError

/-! Second-pass mutation helpers: index `0` targets the interpreter,
index `i + 1` targets the stub for record `i + 1`. -/

/-- in-place update of the element at an index (identity out of range). -/
def listModify {α : Type} (l : List α) (i : Nat) (f : α → α) : List α :=
  match l, i with
  | [], _ => []
  | x :: rest, 0 => f x :: rest
  | x :: rest, j + 1 => x :: listModify rest j f

/-- set the prototype of target `i` (`Object.setPrototypeOf`). -/
def targetSetProto (st : DecState) (i : Nat) (v : DVal) : DecState :=
  match i with
  | 0 => { st with intrp := { st.intrp with protoSet := some v } }
  | j + 1 =>
    { st with objs := listModify st.objs j (fun o => { o with protoSet := some v }) }

/-- define a property on target `i`. -/
def targetDefineProp (st : DecState) (i : Nat) (k : String) (p : DProp) : DecState :=
  match i with
  | 0 => { st with intrp := { st.intrp with props := defineProp st.intrp.props k p } }
  | j + 1 =>
    { st with objs := listModify st.objs j (fun o => { o with props := defineProp o.props k p }) }

/-- `obj.add(value)` on target `i` (a Set-like stub). -/
def targetAddSet (st : DecState) (i : Nat) (v : DVal) : DecState :=
  match i with
  | 0 => st
  | j + 1 =>
    { st with objs := listModify st.objs j (fun o => { o with setData := o.setData ++ [v] }) }

/-- `obj.set(key, value)` on target `i` (a Map-like stub). -/
def targetAddMap (st : DecState) (i : Nat) (k v : DVal) : DecState :=
  match i with
  | 0 => st
  | j + 1 =>
    { st with objs := listModify st.objs j (fun o => { o with mapData := o.mapData ++ [(k, v)] }) }

/-- `Object.preventExtensions` on target `i`. -/
def targetPreventExt (st : DecState) (i : Nat) : DecState :=
  match i with
  | 0 => { st with intrp := { st.intrp with extensible := false } }
  | j + 1 =>
    { st with objs := listModify st.objs j (fun o => { o with extensible := false }) }

/-- the stub kind of target `i` (`none` for the interpreter, which is
neither a Set nor a Map). -/
def targetKind (st : DecState) (i : Nat) : Option StubKind :=
  match i with
  | 0 => none
  | j + 1 => (st.objs.get? j).map DObj.kind

/-- the `jsonObj['nonConfigurable'] || []` companion lists: the string
entries of a JSON array (a non-string entry never equals a string key in
`includes`). -/
def strEntries (v : Option JVal) : List String :=
  match v with
  | some (.jArr xs) =>
    xs.filterMap (fun x => match x with | .jStr s => some s | _ => none)
  | _ => []

/-- the property-population loop of the second pass: decode each value in
order and `Object.defineProperty` it with attribute bits derived from the
companion lists; stop at the first decode error, keeping the mutations made
so far (the thrown exception aborts `deserialize` there). -/
def applyPropList (len : Nat) (i : Nat) (nonC nonE nonW : List String) :
    List (String × JVal) → DecState → Option DecErr × DecState
  | [], st => (none, st)
  | (k, pv) :: rest, st =>
    match decodeValue len pv with
    | .error e => (some e, st)
    | .ok dv =>
      let p : DProp :=
        ⟨dv, !(nonC.contains k), !(nonE.contains k), !(nonW.contains k)⟩
      applyPropList len i nonC nonE nonW rest (targetDefineProp st i k p)

/-- the Set-population loop (`obj.add(decodeValue(data[j]))`). -/
def applySetList (len : Nat) (i : Nat) :
    List JVal → DecState → Option DecErr × DecState
  | [], st => (none, st)
  | x :: rest, st =>
    match decodeValue len x with
    | .error e => (some e, st)
    | .ok dv => applySetList len i rest (targetAddSet st i dv)

/-- `entries[j][0]` / `entries[j][1]`: index lookup on one entry; a
non-array entry gives `undefined` components (and `null` throws). -/
def entryAt (e : JVal) (idx : Nat) : Except DecErr (Option JVal) :=
  match e with
  | .jNull => .error .typeError
  | .jArr xs => .ok (xs.get? idx)
  | .jObj fs => .ok (jfield (.jObj fs) (toString idx))
  | _ => .ok none

/-- decode one component of a map entry (`decodeValue(undefined)` returns
`undefined` by the falsy short-circuit). -/
def decodeEntryComponent (len : Nat) (e : JVal) (idx : Nat) : Except DecErr DVal := do
  let c ← entryAt e idx
  match c with
  | none => .ok .undef
  | some x => decodeValue len x

/-- the Map-population loop (`obj.set(decodeValue(entries[j][0]),
decodeValue(entries[j][1]))`). -/
def applyMapList (len : Nat) (i : Nat) :
    List JVal → DecState → Option DecErr × DecState
  | [], st => (none, st)
  | e :: rest, st =>
    match decodeEntryComponent len e 0 with
    | .error er => (some er, st)
    | .ok k =>
      match decodeEntryComponent len e 1 with
      | .error er => (some er, st)
      | .ok v => applyMapList len i rest (targetAddMap st i k v)

/-- Second pass, one record (`src/server/serialize.js` lines 197–243):
set the prototype when a truthy `proto` field is present, repopulate
properties with attribute bits, repopulate Sets and Maps, then apply
`isExtensible: false`.  Every decode error aborts immediately, keeping the
mutations already made. -/
def applyRecord (len : Nat) (i : Nat) (r : JVal) (st : DecState) :
    Option DecErr × DecState :=
  match r with
  | .jNull => (some .typeError, st)
  | _ =>
    let protoF := jfield r "proto"
    let afterProto : Option DecErr × DecState :=
      if jTruthy protoF then
        match decodeValue len (protoF.getD .jNull) with
        | .error e => (some e, st)
        | .ok dv => (none, targetSetProto st i dv)
      else (none, st)
    match afterProto with
    | (some e, st1) => (some e, st1)
    | (none, st1) =>
      let propsF := jfield r "props"
      let afterProps : Option DecErr × DecState :=
        if jTruthy propsF then
          match propsF with
          | some (.jObj fs) =>
            applyPropList len i (strEntries (jfield r "nonConfigurable"))
              (strEntries (jfield r "nonEnumerable"))
              (strEntries (jfield r "nonWritable")) fs st1
          | _ => (none, st1)
        else (none, st1)
      match afterProps with
      | (some e, st2) => (some e, st2)
      | (none, st2) =>
        let afterSets : Option DecErr × DecState :=
          if targetKind st2 i = some .setStub ∨ targetKind st2 i = some .iwsStub then
            match jfield r "data" with
            | some (.jArr xs) => applySetList len i xs st2
            | _ => (none, st2)
          else (none, st2)
        match afterSets with
        | (some e, st3) => (some e, st3)
        | (none, st3) =>
          let afterMaps : Option DecErr × DecState :=
            if targetKind st3 i = some .mapStub ∨ targetKind st3 i = some .iwmStub then
              match jfield r "entries" with
              | some (.jArr xs) => applyMapList len i xs st3
              | _ => (none, st3)
            else (none, st3)
          match afterMaps with
          | (some e, st4) => (some e, st4)
          | (none, st4) =>
            match jfield r "isExtensible" with
            | some (.jBool false) => (none, targetPreventExt st4 i)
            | _ => (none, st4)

/-- the second-pass loop over all records (record `0` included: its
properties land on the target interpreter). -/
def pass2 (len : Nat) : Nat → List JVal → DecState → Option DecErr × DecState
  | _, [], st => (none, st)
  | i, r :: rest, st =>
    match applyRecord len i r st with
    | (some e, st2) => (some e, st2)
    | (none, st2) => pass2 len (i + 1) rest st2

/-- `Serializer.deserialize(json, intrp)` (`src/server/serialize.js`
lines 77–246).  Returns the error thrown (by kind; `none` on success)
together with the decoder state *at that moment* — a thrown exception
leaves all mutations made so far in place.  On success the
`intrp.postDeserialize()` fixup hook runs (its body lives in
`interpreter.js`, outside `src/`; here it is recorded by the
`postDeserialized` flag). -/
def deserialize (json : JVal) (intrp : Interp) : Option DecErr × DecState :=
  match preDecodeCheck json intrp with
  | .error e => (some e, ⟨intrp, []⟩)
  | .ok kinds =>
    let records := match json with | .jArr rs => rs | _ => []
    let st1 : DecState := ⟨intrp, kinds.map (fun k => ⟨k, none, [], [], [], true⟩)⟩
    match pass2 records.length 0 records st1 with
    | (some e, st2) => (some e, st2)
    | (none, st2) =>
      (none, { st2 with intrp := { st2.intrp with postDeserialized := true } })

/-! ## The snapshot encoder (`Serializer.serialize`, `Serializer.objectHunt_`)

### The host heap as the encoder observes it

`serialize` dispatches on `Object.getPrototypeOf(obj)` identity: against the
host default prototypes, the prototypes registered in `getTypesSerialize_`,
and the `excludeTypes` set (`net.Socket.prototype`, `net.Server.prototype`);
any other prototype is itself an object of the heap. -/

/-- The identity of an object's prototype, as the encoder's `switch` and the
`excludeTypes` / `pruneProperties` lookups distinguish it. -/
inductive ProtoId where
  | objectProto
  | functionProto
  | arrayProto
  | dateProto
  | regexpProto
  | mapProto
  | setProto
  | iwmProto
  | iwsProto
  | registryProto
  /-- `net.Socket.prototype` (in `Serializer.excludeTypes`). -/
  | socketProto
  /-- `net.Server.prototype` (in `Serializer.excludeTypes`). -/
  | serverProto
  /-- a prototype registered in `getTypesSerialize_`, by its type name
  (`"Interpreter"`, `"Scope"`, `"State"`, `"PseudoObject"`, …). -/
  | typeProto (t : String)
  /-- the prototype is the ordinary heap object at this address. -/
  | heapProto (a : Nat)
  /-- `Object.getPrototypeOf(obj) === null`. -/
  | nullProto
deriving DecidableEq, Repr

/-- A host value as the encoder sees it (heap objects by address). -/
inductive HVal where
  | hUndef
  | hNull
  | hBool (b : Bool)
  | hNum (n : JSNum)
  | hStr (s : String)
  | hRef (a : Nat)
deriving DecidableEq, Repr

/-- One own-property slot with its descriptor bits. -/
structure HProp where
  value : HVal
  configurable : Bool
  enumerable : Bool
  writable : Bool
deriving DecidableEq, Repr

/-- The type-specific payload of a host object: `typeof`-function-ness and
native-function id, `Date`/`RegExp` internal data, `Map`/`Set` (and
iterable-weak variants) contents. -/
inductive HKind where
  | plainK
  /-- a host function (`typeof obj === 'function'`) with its `id`
  property (`undefined` when absent). -/
  | funcK (id : Option String)
  /-- a host Array (`Array.isArray`). -/
  | arrK
  | dateK (json : String)
  | regexpK (source flags : String)
  | mapK (entries : List (HVal × HVal))
  | setK (elems : List HVal)
  | iwmK (entries : List (HVal × HVal))
  | iwsK (elems : List HVal)
deriving DecidableEq, Repr

/-- A host heap object. -/
structure HObj where
  proto : ProtoId
  kind : HKind
  props : List (String × HProp)
  extensible : Bool
  /-- `obj instanceof intrp.Object` (pseudo-objects get their `socket`
  slot skipped). -/
  isPseudo : Bool
deriving DecidableEq, Repr

/-- The host heap: objects indexed by address. -/
structure Heap where
  objs : List HObj
deriving DecidableEq, Repr

/-- address lookup. -/
def Heap.find? (h : Heap) (a : Nat) : Option HObj :=
  h.objs.get? a

/-- `Serializer.excludeTypes.has(proto)`. -/
def excludedProto (p : ProtoId) : Bool :=
  p = .socketProto || p = .serverProto

/-- `Serializer.pruneProperties.get(proto) || []` (`src/server/serialize.js`
lines 40–70). -/
def pruneList (p : ProtoId) : List String :=
  match p with
  | .typeProto t =>
    if t = "Interpreter" then
      ["hrStartTime_", "previousTime_", "runner_", "Object", "Function",
       "UserFunction", "BoundFunction", "NativeFunction", "OldNativeFunction",
       "Array", "Date", "RegExp", "Error", "Arguments", "WeakMap", "Thread",
       "Box", "Server"]
    else []
  | .iwmProto => ["refs_", "finalisers_"]
  | .iwsProto => ["refs_", "map_", "finalisers_"]
  | _ => []

/-- is this object a host function (`typeof obj === 'function'`)? -/
def HObj.isFunc (o : HObj) : Bool :=
  match o.kind with
  | .funcK _ => true
  | _ => false

/-- The child values `objectHunt_` recurses into for one (non-function)
object, in source order: unpruned own-property values, then Set members,
then Map entries (key before value). -/
def huntChildren (o : HObj) : List HVal :=
  (o.props.filterMap
    (fun p => if (pruneList o.proto).contains p.1 then none else some p.2.value)) ++
  (match o.kind with
   | .setK elems => elems
   | .iwsK elems => elems
   | _ => []) ++
  (match o.kind with
   | .mapK entries => entries.flatMap (fun e => [e.1, e.2])
   | .iwmK entries => entries.flatMap (fun e => [e.1, e.2])
   | _ => [])

/-- `Serializer.objectHunt_(node, seen)` (`src/server/serialize.js`
lines 444–479): depth-first search.  Primitives are ignored; objects whose
prototype is in the exclude set, and objects already seen, are skipped;
otherwise the object is appended to `seen` (JavaScript `Set` iteration is
insertion-ordered) and, when it is not a function, its property values, Set
members and Map entries are hunted in turn, left to right (the fold).
**Prototypes are not hunted.**  Recursion is by fuel, decreasing once per
depth level; the JavaScript recursion terminates because `seen` grows, and
every concrete evaluation below supplies ample fuel. -/
def objectHunt (heap : Heap) : Nat → HVal → List Nat → List Nat
  | 0, _, seen => seen
  | fuel + 1, v, seen =>
    match v with
    | .hRef a =>
      match heap.find? a with
      | none => seen
      | some o =>
        if excludedProto o.proto || seen.contains a then seen
        else
          if o.isFunc then seen ++ [a]
          else
            (huntChildren o).foldl
              (fun s w => objectHunt heap fuel w s) (seen ++ [a])
    | _ => seen

/-- `Serializer.getObjectList_(node)` for the interpreter at address
`root`: the insertion-ordered list of visited addresses. -/
def getObjectList (heap : Heap) (fuel : Nat) (root : Nat) : List Nat :=
  objectHunt heap fuel (.hRef root) []

/-- The host errors `Serializer.serialize` can throw. -/
inductive SerErr where
  /-- `RangeError('Object not found in table.')` in `encodeValue`. -/
  | rangeError
  /-- plain `Error` (`Native function has no ID:` and host failures on
  malformed objects, none of which a hunted heap produces). -/
  | plainError
deriving DecidableEq, Repr

/-- index of an address in the object list (`objectRefs.get(value)`). -/
def idxOfAddr (objectList : List Nat) (a : Nat) : Option Nat :=
  go objectList 0
where
  go : List Nat → Nat → Option Nat
    | [], _ => none
    | x :: rest, i => if x = a then some i else go rest (i + 1)

/-- `encodeValue(value)` (`src/server/serialize.js` lines 257–288): objects
with an excluded prototype become `null`; other objects become `{"#": ref}`
via the object table, `RangeError` when absent; `undefined` and the special
numbers become their tagged forms; every other primitive passes through. -/
def encodeValue (heap : Heap) (objectList : List Nat) (v : HVal) :
    Except SerErr JVal :=
  match v with
  | .hRef a =>
    match heap.find? a with
    | none => .error .plainError
    | some o =>
      if excludedProto o.proto then .ok .jNull
      else
        match idxOfAddr objectList a with
        | some i => .ok (.jObj [("#", .jNum i)])
        | none => .error .rangeError
  | .hUndef => .ok (.jObj [("Value", .jStr "undefined")])
  | .hNum .posInf => .ok (.jObj [("Number", .jStr "Infinity")])
  | .hNum .negInf => .ok (.jObj [("Number", .jStr "-Infinity")])
  | .hNum .nan => .ok (.jObj [("Number", .jStr "NaN")])
  | .hNum .negZero => .ok (.jObj [("Number", .jStr "-0")])
  | .hNum (.finite q) => .ok (.jNum q)
  | .hStr s => .ok (.jStr s)
  | .hBool b => .ok (.jBool b)
  | .hNull => .ok .jNull

/-- the property-indexing tail of the `serialize` loop: walk the own
properties in order, skipping pruned names and the `socket` slot of
pseudo-objects; encode each value; collect the `nonConfigurable` /
`nonEnumerable` / `nonWritable` companion lists. -/
def encodeProps (heap : Heap) (objectList : List Nat) (o : HObj) :
    Except SerErr (List (String × JVal) × List String × List String × List String) :=
  go o.props
where
  go : List (String × HProp) →
      Except SerErr (List (String × JVal) × List String × List String × List String)
    | [] => .ok ([], [], [], [])
    | (k, p) :: rest => do
      if (pruneList o.proto).contains k then go rest
      else if o.isPseudo && k = "socket" then go rest
      else do
        let ev ← encodeValue heap objectList p.value
        let (fs, nc, ne, nw) ← go rest
        .ok ((k, ev) :: fs,
          (if p.configurable then nc else k :: nc),
          (if p.enumerable then ne else k :: ne),
          (if p.writable then nw else k :: nw))

/-- assemble the per-record fields that follow the type-specific head:
`props` (always emitted — the source's `Object.getOwnPropertyNames(keys)
.length` test is against the *keys array*, whose own `length` property makes
it nonzero even when there are no keys), the nonempty companion lists, and
`isExtensible: false` when the object is not extensible. -/
def propsTail (heap : Heap) (objectList : List Nat) (o : HObj) :
    Except SerErr (List (String × JVal)) := do
  let (fs, nc, ne, nw) ← encodeProps heap objectList o
  .ok ([("props", .jObj fs)] ++
    (if nc.isEmpty then [] else [("nonConfigurable", .jArr (nc.map JVal.jStr))]) ++
    (if ne.isEmpty then [] else [("nonEnumerable", .jArr (ne.map JVal.jStr))]) ++
    (if nw.isEmpty then [] else [("nonWritable", .jArr (nw.map JVal.jStr))]) ++
    (if o.extensible then [] else [("isExtensible", .jBool false)]))

/-- encode the `entries` of a Map-like object. -/
def encodeEntries (heap : Heap) (objectList : List Nat)
    (entries : List (HVal × HVal)) : Except SerErr (List JVal) :=
  entries.mapM (fun e => do
    let k ← encodeValue heap objectList e.1
    let v ← encodeValue heap objectList e.2
    .ok (JVal.jArr [k, v]))

/-- the native-function `id` the serializer reads (`obj.id`): the function's
id, or for a non-function that happens to have `Function.prototype` as its
prototype, its `id` own property when that is a string. -/
def HObj.funcId (o : HObj) : Option String :=
  match o.kind with
  | .funcK i => i
  | _ =>
    match lookupProp o.props "id" with
    | some (.hStr s) => some s
    | _ => none
where
  lookupProp : List (String × HProp) → String → Option HVal
    | [], _ => none
    | (k, p) :: rest, key => if k = key then some p.value else lookupProp rest key

/-- serialize one object of the object list as its record
(`src/server/serialize.js` lines 301–419): the `switch` on
`Object.getPrototypeOf(obj)`. -/
def serializeObj (heap : Heap) (objectList : List Nat) (i : Nat) (a : Nat) :
    Except SerErr JVal := do
  match heap.find? a with
  | none => .error .plainError
  | some o =>
    let hd : List (String × JVal) := [("#", .jNum i)]
    match o.proto with
    | .objectProto => do
      let tl ← propsTail heap objectList o
      .ok (.jObj (hd ++ [("type", .jStr "Object")] ++ tl))
    | .functionProto =>
      match o.funcId with
      | some id =>
        if id = "" then .error .plainError
        else .ok (.jObj (hd ++ [("type", .jStr "Function"), ("id", .jStr id)]))
      | none => .error .plainError
    | .arrayProto => do
      let tl ← propsTail heap objectList o
      .ok (.jObj (hd ++ [("type", .jStr "Array")] ++ tl))
    | .dateProto =>
      match o.kind with
      | .dateK j => .ok (.jObj (hd ++ [("type", .jStr "Date"), ("data", .jStr j)]))
      | _ => .error .plainError
    | .regexpProto =>
      match o.kind with
      | .regexpK src flags =>
        .ok (.jObj (hd ++ [("type", .jStr "RegExp"), ("source", .jStr src),
          ("flags", .jStr flags)]))
      | _ => .error .plainError
    | .mapProto => do
      let entriesF : List (String × JVal) ←
        match o.kind with
        | .mapK entries =>
          if entries.isEmpty then pure []
          else do
            let es ← encodeEntries heap objectList entries
            pure [("entries", .jArr es)]
        | _ => pure []
      let tl ← propsTail heap objectList o
      .ok (.jObj (hd ++ [("type", .jStr "Map")] ++ entriesF ++ tl))
    | .setProto => do
      let dataF : List (String × JVal) ←
        match o.kind with
        | .setK elems =>
          if elems.isEmpty then pure []
          else do
            let es ← elems.mapM (encodeValue heap objectList)
            pure [("data", .jArr es)]
        | _ => pure []
      let tl ← propsTail heap objectList o
      .ok (.jObj (hd ++ [("type", .jStr "Set")] ++ dataF ++ tl))
    | .iwmProto => do
      let entriesF : List (String × JVal) ←
        match o.kind with
        | .iwmK entries =>
          if entries.isEmpty then pure []
          else do
            let es ← encodeEntries heap objectList entries
            pure [("entries", .jArr es)]
        | _ => pure []
      .ok (.jObj (hd ++ [("type", .jStr "IterableWeakMap")] ++ entriesF))
    | .iwsProto => do
      let dataF : List (String × JVal) ←
        match o.kind with
        | .iwsK elems =>
          if elems.isEmpty then pure []
          else do
            let es ← elems.mapM (encodeValue heap objectList)
            pure [("data", .jArr es)]
        | _ => pure []
      .ok (.jObj (hd ++ [("type", .jStr "IterableWeakSet")] ++ dataF))
    | .registryProto => do
      let tl ← propsTail heap objectList o
      .ok (.jObj (hd ++ [("type", .jStr "Registry")] ++ tl))
    | .socketProto => .error .plainError
    | .serverProto => .error .plainError
    | .typeProto t => do
      let tl ← propsTail heap objectList o
      .ok (.jObj (hd ++ [("type", .jStr t)] ++ tl))
    | .heapProto pa => do
      let isArr := o.kind = HKind.arrK
      let pv ← encodeValue heap objectList (.hRef pa)
      let tl ← propsTail heap objectList o
      .ok (.jObj (hd ++ [("type", .jStr (if isArr then "Array" else "Object")),
        ("proto", pv)] ++ tl))
    | .nullProto => do
      let isArr := o.kind = HKind.arrK
      let tl ← propsTail heap objectList o
      .ok (.jObj (hd ++ [("type", .jStr (if isArr then "Array" else "Object")),
        ("proto", .jNull)] ++ tl))

/-- the record loop of `serialize`. -/
def serializeAll (heap : Heap) (objectList : List Nat) :
    Nat → List Nat → Except SerErr (List JVal)
  | _, [] => .ok []
  | i, a :: rest => do
    let r ← serializeObj heap objectList i a
    let rs ← serializeAll heap objectList (i + 1) rest
    .ok (r :: rs)

/-- `Serializer.serialize(intrp)` over the host heap, for the interpreter
at address `root`: hunt the object list from the root, then emit one record
per object.  (`intrp.preSerialize()` lives in `interpreter.js`, outside
`src/`, and mutates nothing this model observes.) -/
def serialize (heap : Heap) (fuel : Nat) (root : Nat) : Except SerErr (List JVal) :=
  let objectList := getObjectList heap fuel root
  serializeAll heap objectList 0 objectList

/-! ## `$.utils.code.toSource` / `toSourceSafe`
(`src/demo/core_13_$.utils.code.js`)

This code runs inside the Code City interpreter; its value universe is the
user-level JavaScript one.  Values are modelled with heap addresses so that
the `opt_seen` identity checks (`opt_seen.indexOf(value)`) mean object
identity, as they do in the source. -/

/-- A user-level value for `toSource`.  (Symbols are omitted: Code City's
interpreter has no symbol values.) -/
inductive CVal where
  | undef
  | null
  | bool (b : Bool)
  | num (n : JSNum)
  | str (s : String)
  | ref (a : Nat)
deriving DecidableEq, Repr

/-- The prototype of an `Error` instance, as the `constructor` ladder of
`toSource` distinguishes it (`errorSubP`: an `Error` subclass prototype
outside the eight named ones — `instanceof Error` holds, `constructor`
stays undefined). -/
inductive ErrProto where
  | errorP
  | evalErrorP
  | rangeErrorP
  | referenceErrorP
  | syntaxErrorP
  | typeErrorP
  | uriErrorP
  | permissionErrorP
  | errorSubP
deriving DecidableEq, Repr

/-- A user-level heap object as `toSource` dispatches on it:
functions (by `typeof`), then by prototype identity RegExps, Dates and
Arrays (`arrObj` elements are `none` at holes), `Error` instances
(`instanceof Error`) with their `message`, and everything else
(`plainObj`), which reaches the selector path. -/
inductive CObj where
  | funcObj
  | regexpObj
  | dateObj (json : String)
  | arrObj (elems : List (Option CVal))
  | errObj (k : ErrProto) (message : Option CVal)
  | plainObj
deriving DecidableEq, Repr

/-- The host and collaborator functions `toSource` calls, as parameters:
number-to-string (`String(value)` on an ordinary number),
`Function.prototype.toString`, `String(regexp)`, `JSON.stringify` on a
string, and `$.utils.selector.getSelector` (a collaborator outside this
file). -/
structure TSEnv where
  heap : List CObj
  numToString : ℚ → String
  funcToString : Nat → String
  regexpToString : Nat → String
  jsonQuote : String → String
  getSelector : Nat → Option String

/-- The exceptions `toSource` can raise, with their `message`. -/
inductive TSErr where
  /-- `ReferenceError('[' + type + ' with no known selector]')`. -/
  | refErr (msg : String)
  /-- `RangeError('[Recursive data structure]')`. -/
  | rangeErr (msg : String)
  /-- `TypeError('[' + type + ']')` ("can't happen" in the source). -/
  | typeErr (msg : String)
  /-- model artifact: recursion fuel exhausted (never hit with the fuel
  used on concrete inputs). -/
  | fuelErr
deriving DecidableEq, Repr

/-- a single-quote character, for building `Date('…')` source text. -/
def sq : String := String.singleton (Char.ofNat 39)

/-- `String(value)` on the primitives the first branch of `toSource`
handles, with its explicit `Object.is(value, -0)` check. -/
def primString (env : TSEnv) (v : CVal) : String :=
  match v with
  | .undef => "undefined"
  | .null => "null"
  | .bool b => if b then "true" else "false"
  | .num .negZero => "-0"
  | .num .posInf => "Infinity"
  | .num .negInf => "-Infinity"
  | .num .nan => "NaN"
  | .num (.finite q) => env.numToString q
  | _ => ""

/-- the `constructor` ladder of the `instanceof Error` branch. -/
def ctorName (k : ErrProto) : Option String :=
  match k with
  | .errorP => some "Error"
  | .evalErrorP => some "EvalError"
  | .rangeErrorP => some "RangeError"
  | .referenceErrorP => some "ReferenceError"
  | .syntaxErrorP => some "SyntaxError"
  | .typeErrorP => some "TypeError"
  | .uriErrorP => some "URIError"
  | .permissionErrorP => some "PermissionError"
  | .errorSubP => none

/-- the selector tail of `toSource` (lines 115–121): return the selector
when the collaborator knows one, else throw the `ReferenceError`. -/
def selectorPath (env : TSEnv) (a : Nat) (seen : List Nat) :
    Except TSErr String × List Nat :=
  match env.getSelector a with
  | some s => (.ok s, seen)
  | none => (.error (.refErr "[object with no known selector]"), seen)

/-- `constructor && msg !== undefined` — emit `Constructor(msg)`, else fall
through to the selector path. -/
def finishErr (env : TSEnv) (a : Nat) (ctor : Option String)
    (msg : Option String) (seen : List Nat) : Except TSErr String × List Nat :=
  match ctor, msg with
  | some c, some m => (.ok (c ++ "(" ++ m ++ ")"), seen)
  | _, _ => selectorPath env a seen

/-- `$.utils.code.toSource(value, opt_seen)`
(`src/demo/core_13_$.utils.code.js` lines 28–124).  The result is paired
with the updated `opt_seen` list: the source pushes into a shared array, so
entries pushed before a caught exception stay visible to the caller.  The
Array branch's element loop is the fold: `''` at holes, recursive
`toSource` otherwise; the first exception bails out (`data = null; break`
— the `none` accumulator skips the remaining elements), keeping the
`opt_seen` pushes already made, and the bailed branch falls through to the
selector path.  Recursion is by fuel, decreasing once per object level. -/
def toSource (env : TSEnv) : Nat → List Nat → CVal → Except TSErr String × List Nat
  | _, seen, .undef => (.ok (primString env .undef), seen)
  | _, seen, .null => (.ok (primString env .null), seen)
  | _, seen, .bool b => (.ok (primString env (.bool b)), seen)
  | _, seen, .num n => (.ok (primString env (.num n)), seen)
  | _, seen, .str s => (.ok (env.jsonQuote s), seen)
  | fuel, seen, .ref a =>
    match env.heap.get? a with
    | none => (.error .fuelErr, seen)
    | some o =>
      match o with
      | .funcObj => (.ok (env.funcToString a), seen)
      | _ =>
        if seen.contains a then
          (.error (.rangeErr "[Recursive data structure]"), seen)
        else
          match fuel with
          | 0 => (.error .fuelErr, seen ++ [a])
          | fuel' + 1 =>
            match o with
            | .regexpObj => (.ok (env.regexpToString a), seen ++ [a])
            | .dateObj j => (.ok ("Date(" ++ sq ++ j ++ sq ++ ")"), seen ++ [a])
            | .arrObj elems =>
              if elems.length ≤ 100 then
                match
                  elems.foldl
                    (fun acc el =>
                      match acc with
                      | (none, s) => (none, s)
                      | (some ds, s) =>
                        match el with
                        | none => (some (ds ++ [""]), s)
                        | some x =>
                          match toSource env fuel' s x with
                          | (.ok str, s2) => (some (ds ++ [str]), s2)
                          | (.error _, s2) => (none, s2))
                    (some [], seen ++ [a])
                with
                | (some datas, seen2) =>
                  (.ok ("[" ++ String.intercalate ", " datas ++ "]"), seen2)
                | (none, seen2) => selectorPath env a seen2
              else selectorPath env a (seen ++ [a])
            | .errObj k msg =>
              match msg with
              | none => finishErr env a (ctorName k) (some "") (seen ++ [a])
              | some mv =>
                match toSource env fuel' (seen ++ [a]) mv with
                | (.ok s, seen2) => finishErr env a (ctorName k) (some s) seen2
                | (.error _, seen2) => finishErr env a (ctorName k) none seen2
            | .plainObj => selectorPath env a (seen ++ [a])
            | .funcObj => (.ok (env.funcToString a), seen ++ [a])

/-- `$.utils.code.toSourceSafe(value)`
(`src/demo/core_13_$.utils.code.js` lines 128–138): call `toSource` with no
`opt_seen`; catch a `ReferenceError` and return its `message`; re-throw
anything else. -/
def toSourceSafe (env : TSEnv) (fuel : Nat) (v : CVal) : Except TSErr String :=
  match toSource env fuel [] v with
  | (.error (.refErr m), _) => .ok m
  | (r, _) => r

/-! ## Concrete inputs used by the theorems below -/

/-- is the top-level JSON value an array (`Array.isArray`)? -/
def JVal.isArr : JVal → Bool
  | .jArr _ => true
  | _ => false

/-- does the address `b` occur among the child values the reachability walk
follows (property values after pruning, Set members, Map entries) of any
object of the heap?  `false` means `b` is referenced at most by prototype
links. -/
def refOccurs (heap : Heap) (b : Nat) : Bool :=
  heap.objs.any (fun o => (huntChildren o).contains (.hRef b))

/-- a freshly initialized target interpreter: initialized, one native
function `"f1"`, no own properties. -/
def intrp0 : Interp := ⟨true, ["f1"], none, [], true, false⟩

/-- snapshot whose record 1 carries a reference to record 0 (the
interpreter) in `x`, and an ordinary reference in `y`. -/
def c3json : JVal := .jArr [
  .jObj [("type", .jStr "Interpreter")],
  .jObj [("type", .jStr "Object"),
         ("props", .jObj [("x", .jObj [("#", .jNum 0)]),
                          ("y", .jObj [("#", .jNum 1)])])]]

/-- snapshot whose record 0 defines a property on the interpreter and whose
record 1 holds a dangling reference (`{"#": 7}` with only 2 records). -/
def c2json : JVal := .jArr [
  .jObj [("props", .jObj [("marker", .jNum 1)])],
  .jObj [("type", .jStr "Object"),
         ("props", .jObj [("bad", .jObj [("#", .jNum 7)])])]]

/-- a heap whose object 1 is reachable from the interpreter (object 0)
through property `a`, while object 1's prototype is object 2, which is
reachable in no other way. -/
def c4heap : Heap := ⟨[
  ⟨.typeProto "Interpreter", .plainK, [("a", ⟨.hRef 1, true, true, true⟩)], true, false⟩,
  ⟨.heapProto 2, .plainK, [], true, false⟩,
  ⟨.objectProto, .plainK, [], true, false⟩]⟩

/-- a one-object heap: the interpreter with one property of each special
scalar. -/
def c8heap : Heap := ⟨[
  ⟨.typeProto "Interpreter", .plainK,
    [("x", ⟨.hNum .negZero, true, true, true⟩),
     ("y", ⟨.hNum .posInf, true, true, true⟩),
     ("z", ⟨.hNum .negInf, true, true, true⟩),
     ("w", ⟨.hNum .nan, true, true, true⟩),
     ("u", ⟨.hUndef, true, true, true⟩)], true, false⟩]⟩

/-- a global Go scope declaring `x = 42`. -/
def c5parent : GoScope := .mk [("x", .numberV 42)] none

/-- an inner Go scope declaring nothing, with `c5parent` as parent. -/
def c5child : GoScope := .mk [] (some c5parent)

/-- the program `var x = 1; x += 2; x` (AST as the parser collaborator
produces it). -/
def c7prog : Node :=
  .program [
    .variableDeclaration [.variableDeclarator "x" (some (.literal (.numberV 1)))],
    .expressionStatement
      (.assignmentExpression "+=" (.identifier "x") (.literal (.numberV 2))),
    .expressionStatement (.identifier "x")]

/-- a `toSource` environment: object 0 is plain with no selector, object 1
is a self-referential array with a selector, object 2 a `RangeError` with
message `"boom"`. -/
def env0 : TSEnv :=
  ⟨[.plainObj, .arrObj [some (.ref 1)], .errObj .rangeErrorP (some (.str "boom"))],
   fun _ => "1", fun _ => "function () \x7b\x7d", fun _ => "/x/",
   fun s => "<" ++ s ++ ">",
   fun a => if a = 1 then some "$.cycle" else none⟩

/-! Basic lookup lemmas for the Go variable map. -/

theorem varGet_varSet (vs : Vars) (k name : String) (v : GoValue) :
    varGet (varSet vs k v) name = if k = name then some v else varGet vs name := by
  induction vs with
  | nil =>
    by_cases h : k = name <;> simp [varGet, varSet, h]
  | cons hd tl ih =>
    obtain ⟨k', w⟩ := hd
    by_cases h1 : k' = k
    · subst h1
      by_cases h2 : k' = name <;> simp [varGet, varSet, h2]
    · by_cases h2 : k' = name
      · subst h2
        have h3 : ¬ (k = k') := fun hc => h1 hc.symm
        simp [varGet, varSet, h1, h3]
      · by_cases h3 : k = name
        · subst h3
          simp [varGet, varSet, h1, h2, ih]
        · simp [varGet, varSet, h1, h2, h3, ih]

/-- Merging two successive guarded updates into membership in an appended
list (used for the multi-child cases of `populate`). -/
theorem ite_mem_merge {α : Type} (u x : α) (name : String) (A B : List String) :
    (if name ∈ B then u else if name ∈ A then u else x) =
      (if name ∈ A ++ B then u else x) := by
  by_cases hA : name ∈ A <;> by_cases hB : name ∈ B <;> simp [hA, hB]

mutual

/-- What one `populate` pass does to the map, extensionally: every hoisted
name is bound to `Undefined{}`, every other name keeps its previous
binding. -/
theorem populate_lookup (n : Node) : ∀ (vs : Vars) (name : String),
    varGet (populate vs n) name =
      if name ∈ hoistNames n then some GoValue.undefinedV else varGet vs name := by
  cases n with
  | variableDeclarator id ini =>
    intro vs name
    simp only [populate, hoistNames, varGet_varSet, List.mem_singleton]
    by_cases h : id = name
    · simp [h]
    · have h' : ¬ (name = id) := fun hc => h hc.symm
      simp [h, h']
  | functionDeclaration id body =>
    intro vs name
    simp only [populate, hoistNames, varGet_varSet, List.mem_singleton]
    by_cases h : id = name
    · simp [h]
    · have h' : ¬ (name = id) := fun hc => h hc.symm
      simp [h, h']
  | blockStatement body =>
    intro vs name
    simpa only [populate, hoistNames] using populateList_lookup body vs name
  | catchClause p body =>
    intro vs name
    simpa only [populate, hoistNames] using populate_lookup body vs name
  | doWhileStatement body test =>
    intro vs name
    simpa only [populate, hoistNames] using populate_lookup body vs name
  | forInStatement left right body =>
    intro vs name
    rw [populate, populate_lookup body, populate_lookup left, hoistNames,
      ite_mem_merge]
  | forStatement ini test update body =>
    intro vs name
    rw [populate, populate_lookup body, populate_lookup ini, hoistNames,
      ite_mem_merge]
  | ifStatement test consequent alternate =>
    intro vs name
    rw [populate, populate_lookup alternate, populate_lookup consequent, hoistNames,
      ite_mem_merge]
  | labeledStatement body =>
    intro vs name
    simpa only [populate, hoistNames] using populate_lookup body vs name
  | program body =>
    intro vs name
    simpa only [populate, hoistNames] using populateList_lookup body vs name
  | switchCase test consequent =>
    intro vs name
    simpa only [populate, hoistNames] using populateList_lookup consequent vs name
  | switchStatement disc cases =>
    intro vs name
    simpa only [populate, hoistNames] using populateList_lookup cases vs name
  | tryStatement block handler finalizer =>
    intro vs name
    rw [populate, populate_lookup finalizer, populate_lookup handler,
      populate_lookup block, hoistNames, ite_mem_merge, ite_mem_merge,
      List.append_assoc]
  | variableDeclaration declarations =>
    intro vs name
    simpa only [populate, hoistNames] using populateList_lookup declarations vs name
  | whileStatement test body =>
    intro vs name
    simpa only [populate, hoistNames] using populate_lookup body vs name
  | arrayExpression elements => intro vs name; simp [populate, hoistNames]
  | assignmentExpression op l r => intro vs name; simp [populate, hoistNames]
  | binaryExpression op l r => intro vs name; simp [populate, hoistNames]
  | breakStatement => intro vs name; simp [populate, hoistNames]
  | callExpression c a => intro vs name; simp [populate, hoistNames]
  | conditionalExpression t c a => intro vs name; simp [populate, hoistNames]
  | continueStatement => intro vs name; simp [populate, hoistNames]
  | debuggerStatement => intro vs name; simp [populate, hoistNames]
  | emptyStatement => intro vs name; simp [populate, hoistNames]
  | expressionStatement e => intro vs name; simp [populate, hoistNames]
  | functionExpression body => intro vs name; simp [populate, hoistNames]
  | identifier nm => intro vs name; simp [populate, hoistNames]
  | literal v => intro vs name; simp [populate, hoistNames]
  | logicalExpression op l r => intro vs name; simp [populate, hoistNames]
  | memberExpression o p c => intro vs name; simp [populate, hoistNames]
  | newExpression c a => intro vs name; simp [populate, hoistNames]
  | objectExpression props => intro vs name; simp [populate, hoistNames]
  | property k v => intro vs name; simp [populate, hoistNames]
  | returnStatement a => intro vs name; simp [populate, hoistNames]
  | sequenceExpression es => intro vs name; simp [populate, hoistNames]
  | thisExpression => intro vs name; simp [populate, hoistNames]
  | throwStatement a => intro vs name; simp [populate, hoistNames]
  | unaryExpression op a => intro vs name; simp [populate, hoistNames]
  | updateExpression op pre a => intro vs name; simp [populate, hoistNames]

/-- `populate_lookup` for statement lists. -/
theorem populateList_lookup (l : List Node) : ∀ (vs : Vars) (name : String),
    varGet (populateList vs l) name =
      if name ∈ hoistNamesList l then some GoValue.undefinedV else varGet vs name := by
  cases l with
  | nil =>
    intro vs name
    simp [populateList, hoistNamesList]
  | cons s rest =>
    intro vs name
    rw [populateList, populateList_lookup rest, populate_lookup s, hoistNamesList,
      ite_mem_merge]

end

/-! ## The hunt-avoidance lemmas for the encoder walk -/

/-- the child fold of `objectHunt` never reaches `b` when no child is a
reference to `b` and the hunt at the inner fuel level avoids `b`. -/
theorem huntFold_avoids (heap : Heap) (b : Nat) (fuel : Nat)
    (H : ∀ (v : HVal) (seen : List Nat), v ≠ .hRef b → b ∉ seen →
      b ∉ objectHunt heap fuel v seen) :
    ∀ (ws : List HVal) (seen : List Nat), (∀ w ∈ ws, w ≠ .hRef b) → b ∉ seen →
      b ∉ ws.foldl (fun s w => objectHunt heap fuel w s) seen := by
  intro ws
  induction ws with
  | nil => intro seen _ hs; simpa using hs
  | cons w rest ih =>
    intro seen hws hs
    simp only [List.foldl_cons]
    exact ih (objectHunt heap fuel w seen) (fun x hx => hws x (by simp [hx]))
      (H w seen (hws w (by simp)) hs)

/-- The reachability walk never reaches an address that occurs in no hunted
child position: prototype links alone do not make an object visited. -/
theorem hunt_avoids (heap : Heap) (b : Nat) (hocc : refOccurs heap b = false) :
    ∀ (fuel : Nat) (v : HVal) (seen : List Nat), v ≠ .hRef b → b ∉ seen →
      b ∉ objectHunt heap fuel v seen := by
  intro fuel
  induction fuel with
  | zero => intro v seen _ hs; simpa [objectHunt] using hs
  | succ fuel' ih =>
    intro v seen hv hs
    cases v with
    | hUndef => simpa [objectHunt] using hs
    | hNull => simpa [objectHunt] using hs
    | hBool b2 => simpa [objectHunt] using hs
    | hNum n => simpa [objectHunt] using hs
    | hStr s => simpa [objectHunt] using hs
    | hRef a =>
      cases hfind : heap.find? a with
      | none => simpa [objectHunt, hfind] using hs
      | some o =>
        have hab : ¬ (b = a) := fun hc => hv (by rw [hc])
        have hs1 : b ∉ seen ++ [a] := by
          simp only [List.mem_append, List.mem_singleton]
          exact fun hc => hc.elim hs hab
        have homem : o ∈ heap.objs := List.get?_mem hfind
        have hnotin : (HVal.hRef b) ∉ huntChildren o := by
          have h2 := hocc
          simp only [refOccurs, List.any_eq_false] at h2
          simpa using h2 o homem
        have hchild : ∀ w ∈ huntChildren o, w ≠ .hRef b :=
          fun w hw hc => hnotin (hc ▸ hw)
        have hrec := huntFold_avoids heap b fuel' ih (huntChildren o)
          (seen ++ [a]) hchild hs1
        simp only [objectHunt, hfind]
        split
        · exact hs
        · split
          · exact hs1
          · exact hrec

/-! ## The claims -/

/-- C2 counterexample.  The claim "whenever `Serializer.deserialize` throws
… the target interpreter is left exactly in its pre-decode state" is false:
on `c2json` the decode throws a dangling-reference `ReferenceError` (from
record 1) after the second pass has already defined the property `marker`
on the target interpreter (from record 0), so the interpreter is not in its
pre-decode state. -/
theorem c2_counterexample :
    (deserialize c2json intrp0).1 = some DecErr.refError ∧
    (deserialize c2json intrp0).2.intrp.props =
      [("marker", ⟨.num (.finite 1), true, true, true⟩)] ∧
    intrp0.props = [] ∧
    ([("marker", (⟨.num (.finite 1), true, true, true⟩ : DProp))] :
      List (String × DProp)) ≠ [] :=
  ⟨rfl, rfl, rfl, by simp⟩

/-- C2 amended: failures raised by `Serializer.deserialize` before the
second (populate) pass — the non-array top-level `TypeError`, the
uninitialized-interpreter `Error`, and the first-pass unknown-type-tag
`TypeError`, missing-function-id `RangeError` and invalid-Date `TypeError`
— leave the target interpreter exactly in its pre-decode state; a
dangling-reference `ReferenceError`, raised during the second pass, may
leave it partially mutated (see the counterexample). -/
theorem c2_first_pass_atomic (json : JVal) (intrp : Interp) (e : DecErr)
    (h : preDecodeCheck json intrp = .error e) :
    deserialize json intrp = (some e, ⟨intrp, []⟩) := by
  simp [deserialize, h]

/-- C2 witness: an unknown type tag makes `preDecodeCheck` fail, and the
interpreter comes back untouched. -/
theorem c2_first_pass_atomic_witness :
    preDecodeCheck (.jArr [.jObj [], .jObj [("type", .jStr "Nonsense")]]) intrp0 =
      .error .typeError ∧
    deserialize (.jArr [.jObj [], .jObj [("type", .jStr "Nonsense")]]) intrp0 =
      (some .typeError, ⟨intrp0, []⟩) :=
  ⟨rfl, c2_first_pass_atomic _ _ _ rfl⟩

/-- C3.  The claim is the code's own intent (`objectList = [intrp]` with
the first-pass comment "we don't need to (re)create object #0, because
that's the interpreter proper"), but the truthiness test
`if ((data = value['#']))` skips the reference branch when the index is 0:
on `c3json`, decode succeeds, the slot `y` holding `{"#": 1}` is rebound to
the object of record 1, but the slot `x` holding `{"#": 0}` keeps the raw
JSON tag object instead of the target interpreter. -/
theorem c3_interpreter_reference_not_rebound :
    (deserialize c3json intrp0).1 = none ∧
    (deserialize c3json intrp0).2.objs.map DObj.props =
      [[("x", ⟨.raw (.jObj [("#", .jNum 0)]), true, true, true⟩),
        ("y", ⟨.obj 1, true, true, true⟩)]] ∧
    DVal.raw (.jObj [("#", .jNum 0)]) ≠ DVal.obj 0 :=
  ⟨rfl, rfl, by simp⟩

/-- C4 counterexample.  The claim "the object's prototype … is itself
assigned a record in the snapshot, so emitting the record's proto reference
never fails with an object-not-found error" is false: on `c4heap` the walk
visits only objects 0 and 1 (object 2 is referenced by a prototype link
alone, which `objectHunt_` does not follow), and `serialize` then throws
`RangeError('Object not found in table.')` when encoding object 1's proto
reference. -/
theorem c4_counterexample :
    getObjectList c4heap 10 0 = [0, 1] ∧
    serialize c4heap 10 0 = .error .rangeError :=
  ⟨rfl, rfl⟩

/-- C4 amended: the reachability walk follows own-property values, Set
members and Map entries but **not** prototype links — an address that
occurs in no hunted child position of any heap object (and is not the root)
is never assigned a record, whatever prototype links point at it; emitting
a proto reference to such an object therefore fails with a `RangeError`
(see the counterexample). -/
theorem c4_hunt_ignores_prototypes (heap : Heap) (fuel : Nat) (root b : Nat)
    (hocc : refOccurs heap b = false) (hroot : root ≠ b) :
    b ∉ getObjectList heap fuel root := by
  have hv : (HVal.hRef root) ≠ .hRef b := by
    intro hc
    exact hroot (by injection hc)
  exact hunt_avoids heap b hocc fuel (.hRef root) [] hv (by simp)

/-- C4 witness: object 2 of `c4heap` occurs only as a prototype, and indeed
gets no record. -/
theorem c4_hunt_ignores_prototypes_witness :
    refOccurs c4heap 2 = false ∧ (0 : Nat) ≠ 2 ∧
    2 ∉ getObjectList c4heap 10 0 :=
  ⟨by decide, by decide,
    c4_hunt_ignores_prototypes c4heap 10 0 2 (by decide) (by decide)⟩

/-- C5.  The claim ("`getVar` returns the binding of the nearest enclosing
scope that declares the name, `setVar` writes to the first enclosing scope
declaring it, and an unresolved read throws a user-level `ReferenceError`")
matches the code's own FIXME comments ("this should probably recurse",
"should probably throw"), but the code does neither: with `x` declared only
in the parent scope, `getVar`/`setVar` on the child scope panic with a host
error instead of walking the chain, although the chain lookup the claim
describes finds `42`. -/
theorem c5_scope_lookup_ignores_chain :
    scopeGetVar c5child "x" = .error .undeclaredGet ∧
    scopeSetVar c5child "x" (.numberV 1) = .error .undeclaredSet ∧
    chainLookup c5child "x" = some (.numberV 42) :=
  ⟨rfl, rfl, rfl⟩

/-- C6.  The hoisting pre-pass `scope.populate` binds exactly the names the
claim lists — every `VariableDeclarator` and `FunctionDeclaration` in the
statement tree, descending through blocks, ifs, loops, try/catch/finally,
switch and labeled statements but not into function bodies (`hoistNames`)
— to `undefined` in the given scope, leaves every other binding untouched
(so no initializer is evaluated: the scope's other values are unchanged and
the pass never consults an `Init`), and is idempotent. -/
theorem c6_populate_hoists (n : Node) (vs : Vars) (name : String) :
    (varGet (populate vs n) name =
      if name ∈ hoistNames n then some GoValue.undefinedV else varGet vs name) ∧
    varGet (populate (populate vs n) n) name = varGet (populate vs n) name := by
  refine ⟨populate_lookup n vs name, ?_⟩
  rw [populate_lookup n (populate vs n) name, populate_lookup n vs name]
  by_cases h : name ∈ hoistNames n <;> simp [h]

/-- C7.  The claim that compound assignment applies the operator is false
on the code: `stateAssignmentExpression` stores `node.Operator` but its
`step` performs `this.left.set(this.right)` unconditionally, so after
`var x = 1; x += 2` the engine leaves `x = 2` (the bare right-hand side),
not `1 + 2 = 3`. -/
theorem c7_compound_assignment_ignored :
    ((mkInterp c7prog).bind (runM 50)).map
        (fun m => (m.cur.isNone, varGet m.vars "x", m.value)) =
      .ok (true, some (.numberV 2), some (.numberV 2)) ∧
    GoValue.numberV 2 ≠ GoValue.numberV (1 + 2) :=
  ⟨rfl, by
    intro h
    have h2 : (2 : ℚ) = 1 + 2 := by injection h
    norm_num at h2⟩

/-- C8.  Every special scalar round-trips bit-for-bit (in the sense of
`Object.is`, which is equality of `JSNum`): the encoder emits the designated
tagged form for `-0`, `+Infinity`, `-Infinity`, `NaN` and `undefined`, and
the decoder maps that form back to the identical value — whatever heap,
object table and record count are in play — and a full
serialize-then-deserialize pass on a heap holding all five specials
restores all five property values exactly. -/
theorem c8_special_scalars_roundtrip :
    (∀ (heap : Heap) (ol : List Nat) (len : Nat),
      (encodeValue heap ol (.hNum .negZero) = .ok (.jObj [("Number", .jStr "-0")]) ∧
        decodeValue len (.jObj [("Number", .jStr "-0")]) = .ok (.num .negZero)) ∧
      (encodeValue heap ol (.hNum .posInf) = .ok (.jObj [("Number", .jStr "Infinity")]) ∧
        decodeValue len (.jObj [("Number", .jStr "Infinity")]) = .ok (.num .posInf)) ∧
      (encodeValue heap ol (.hNum .negInf) = .ok (.jObj [("Number", .jStr "-Infinity")]) ∧
        decodeValue len (.jObj [("Number", .jStr "-Infinity")]) = .ok (.num .negInf)) ∧
      (encodeValue heap ol (.hNum .nan) = .ok (.jObj [("Number", .jStr "NaN")]) ∧
        decodeValue len (.jObj [("Number", .jStr "NaN")]) = .ok (.num .nan)) ∧
      (encodeValue heap ol .hUndef = .ok (.jObj [("Value", .jStr "undefined")]) ∧
        decodeValue len (.jObj [("Value", .jStr "undefined")]) = .ok .undef)) ∧
    (serialize c8heap 10 0).map
        (fun rs => (deserialize (.jArr rs) intrp0).2.intrp.props) =
      .ok [("x", ⟨.num .negZero, true, true, true⟩),
           ("y", ⟨.num .posInf, true, true, true⟩),
           ("z", ⟨.num .negInf, true, true, true⟩),
           ("w", ⟨.num .nan, true, true, true⟩),
           ("u", ⟨.undef, true, true, true⟩)] :=
  ⟨fun _ _ _ => ⟨⟨rfl, rfl⟩, ⟨rfl, rfl⟩, ⟨rfl, rfl⟩, ⟨rfl, rfl⟩, ⟨rfl, rfl⟩⟩,
    rfl⟩

/-- C9 counterexample.  On a non-array top level `Serializer.deserialize`
throws `TypeError('Top-level JSON is not a list.')` — a `TypeError`, not
the `ShapeError` kind the claim (following the spec's boundary taxonomy)
asserts. -/
theorem c9_counterexample :
    deserialize (.jNum 1) intrp0 = (some .typeError, ⟨intrp0, []⟩) ∧
    DecErr.typeError ≠ DecErr.shapeError :=
  ⟨rfl, by decide⟩

/-- C9 amended: whenever the top-level value is not an array,
`Serializer.deserialize` fails with a `TypeError` (and that error kind
only), leaving the interpreter untouched. -/
theorem c9_nonarray_typeerror (json : JVal) (intrp : Interp)
    (h : json.isArr = false) :
    deserialize json intrp = (some .typeError, ⟨intrp, []⟩) := by
  cases json <;> first
  | rfl
  | simp [JVal.isArr] at h

/-- C9 witness. -/
theorem c9_nonarray_typeerror_witness :
    JVal.isArr (.jStr "nope") = false ∧
    deserialize (.jStr "nope") intrp0 = (some .typeError, ⟨intrp0, []⟩) :=
  ⟨rfl, c9_nonarray_typeerror (.jStr "nope") intrp0 rfl⟩

/-- C10.  `toSourceSafe` returns exactly what `toSource` returns when the
latter does not throw; when `toSource` throws a `ReferenceError` it returns
that error's message string; every other exception propagates unchanged —
the equation holds for every environment, fuel and value.  Concretely: a
plain object with no selector makes `toSource` throw the
no-known-selector `ReferenceError` and `toSourceSafe` return its message; a
self-referential array (whose internal `RangeError` the array loop catches,
falling back to the selector) and an error object pass their `toSource`
results through unchanged. -/
theorem c10_toSourceSafe_catches_only_selector_errors :
    (∀ (env : TSEnv) (fuel : Nat) (v : CVal),
      toSourceSafe env fuel v =
        match (toSource env fuel [] v).1 with
        | .error (.refErr m) => .ok m
        | r => r) ∧
    toSource env0 20 [] (.ref 0) =
      (.error (.refErr "[object with no known selector]"), [0]) ∧
    toSourceSafe env0 20 (.ref 0) = .ok "[object with no known selector]" ∧
    toSource env0 20 [] (.ref 1) = (.ok "$.cycle", [1]) ∧
    toSourceSafe env0 20 (.ref 1) = .ok "$.cycle" ∧
    toSource env0 20 [] (.ref 2) = (.ok "RangeError(<boom>)", [2]) ∧
    toSourceSafe env0 20 (.ref 2) = .ok "RangeError(<boom>)" := by
  refine ⟨?_, rfl, rfl, rfl, rfl, rfl, rfl⟩
  intro env fuel v
  unfold toSourceSafe
  rcases h : toSource env fuel [] v with ⟨r, s2⟩
  rcases r with e | r
  · cases e <;> rfl
  · rfl

end CodeCity
